import Mathlib

/-!
Verification of the CINECA log-validation code (genomics pipeline QC).

This file gives a shallow embedding, in Lean 4, of the pure computational
core of the repository's validators:

* `single_paired`       — the sample-metadata resolver (`Bwa.single_paired`),
* `templateLoop`        — the global-flags template differ
                          (`Parent.check_global_flags_variables`),
* the progress-meter chromosome check
                          (`Parent.check_progressmeter_chromosomes`),
* the `split_log` single-pass section splitters of `BaseRecalibrator`
  and `HaploType`,
* the dedup/sort table check (`SamSort.check_table_sums`) and
  `SamSort.check_unmated`,
* the aggregate scorer (`Parent.normalize`, `Parent.distance`),
* the fastqc checks (`Fastqc.check_lines`, `Fastqc.check_start_end`).

File I/O is modelled by passing the already-read line lists; Python floats
are modelled by rationals, with an explicit IEEE-style value type (`RVal`)
where NaN/infinity propagation matters; Python dicts are modelled as
insertion-ordered association lists, matching CPython's key-order
semantics.  Error paths of the Python code (`IndexError`,
`ZeroDivisionError`) are modelled with `Option`.  Each embedded
definition mirrors the corresponding Python method; the theorems at the
end of the file settle the specification's claims about them.
-/

/-! ## Python-style helpers shared by several validators -/

/-- Python slice `s[:n]` on a character list: for `n ≥ 0` take the first
`n` characters, for `n < 0` drop the last `-n` characters (clamped). -/
def pySliceToList (cs : List Char) (n : Int) : List Char :=
  if 0 ≤ n then cs.take n.toNat else cs.take (cs.length - (-n).toNat)

/-- Python slice `s[:n]` on strings. -/
def pySliceTo (s : String) (n : Int) : String :=
  String.mk (pySliceToList s.toList n)

/-- Python slice `s[n:]` on a character list. -/
def pySliceFromList (cs : List Char) (n : Int) : List Char :=
  if 0 ≤ n then cs.drop n.toNat else cs.drop (cs.length - (-n).toNat)

/-- Python slice `s[n:]` on strings. -/
def pySliceFrom (s : String) (n : Int) : String :=
  String.mk (pySliceFromList s.toList n)

/-- Python's `pat in s` / `re.search` for a literal pattern: substring
containment, via character lists. -/
def containsSub (s pat : String) : Bool :=
  decide (pat.toList <:+: s.toList)

/-- Python `dict.fromkeys` key-deduplication, accumulator form: keeps the
first occurrence of every element, in order; `seen` holds the keys already
emitted. -/
def dictFromKeysAux (seen : List String) : List String → List String
  | [] => []
  | x :: xs =>
      if x ∈ seen then dictFromKeysAux seen xs
      else x :: dictFromKeysAux (x :: seen) xs

/-- `list(dict.fromkeys(l))`: deduplicate keeping first occurrences in
order. -/
def dictFromKeys (l : List String) : List String :=
  dictFromKeysAux [] l

/-! ## Claim C3 — `single_paired` (sample-metadata resolver)

`Bwa.single_paired` reads `fastq.csv` into a dataframe and returns
`len(df[df.Sample == self.sample]) == 2`.  We model the dataframe by the
list of values of its `Sample` column. -/

/-- `single_paired` on the CSV source: filter the `Sample` column for the
sample id and compare the row count with 2 (`src/log_analysis.py` line 52
and `src/qc/bwa.py` line 34). -/
def single_paired (csvSamples : List String) (sample : String) : Bool :=
  (csvSamples.filter (fun r => r == sample)).length == 2

/-- `single_paired` directory fallback in `src/qc/bwa.py` (lines 37-41):
when the CSV path is a directory, count the `*.gz` files in it and compare
with 2. -/
def single_paired_dir (gzFiles : List String) : Bool :=
  gzFiles.length == 2

/-! ## Claim C5 — global-flags template differ

`Parent.check_global_flags_variables` loops over the rows of the captured
global-flags section, compares each with the same row of the golden
template, and raises at the first row that differs and is not in the
hard-coded exemption list.  `templateLoop` is that loop with the exemption
list as a parameter; the two source revisions are the two instantiations
below. -/

/-- The row loop of `check_global_flags_variables`: starting at index
`row`, return `some i` for the first `i` with
`flags[i] ≠ template[i] ∧ i ∉ exempt` (the raised mismatch), else
`none` (the check passes). -/
def templateLoop (exempt : List Nat) (flags log_template : List String)
    (row : Nat) : Option Nat :=
  if h : row < flags.length then
    if flags.getD row "" ≠ log_template.getD row "" ∧ row ∉ exempt then
      some row
    else
      templateLoop exempt flags log_template (row + 1)
  else
    none
termination_by flags.length - row
decreasing_by omega

/-- `check_global_flags_variables`, `src/qc/log_analysis_new.py` lines
327-333: exemption indices `[55, 257, 304, 316, 349, 360]`. -/
def check_global_flags_variables_qc (flags log_template : List String) :
    Option Nat :=
  templateLoop [55, 257, 304, 316, 349, 360] flags log_template 0

/-- `check_global_flags_variables`, `src/log_analysis_new.py` lines
748-754: exemption indices `[257, 304, 316, 349, 360]`. -/
def check_global_flags_variables_old (flags log_template : List String) :
    Option Nat :=
  templateLoop [257, 304, 316, 349, 360] flags log_template 0

lemma templateLoop_eq_none_of_good (exempt : List Nat)
    (flags log_template : List String) :
    ∀ n row, flags.length - row ≤ n →
      (∀ i, row ≤ i → i < flags.length →
        flags.getD i "" ≠ log_template.getD i "" → i ∈ exempt) →
      templateLoop exempt flags log_template row = none := by
  intro n
  induction n with
  | zero =>
      intro row hrow _
      rw [templateLoop]
      split
      · rename_i h
        omega
      · rfl
  | succ n ih =>
      intro row hrow hgood
      rw [templateLoop]
      split
      · rename_i h
        split
        · rename_i hbad
          exact absurd (hgood row le_rfl h hbad.1) hbad.2
        · exact ih (row + 1) (by omega)
            (fun i hi hlen hne => hgood i (by omega) hlen hne)
      · rfl

lemma templateLoop_some_spec (exempt : List Nat)
    (flags log_template : List String) :
    ∀ n row j, flags.length - row ≤ n →
      templateLoop exempt flags log_template row = some j →
      row ≤ j ∧ j < flags.length ∧
        flags.getD j "" ≠ log_template.getD j "" ∧ j ∉ exempt ∧
        (∀ k, row ≤ k → k < j →
          flags.getD k "" = log_template.getD k "" ∨ k ∈ exempt) := by
  intro n
  induction n with
  | zero =>
      intro row j hrow heq
      rw [templateLoop] at heq
      split at heq
      · omega
      · exact absurd heq (by simp)
  | succ n ih =>
      intro row j hrow heq
      rw [templateLoop] at heq
      split at heq
      · rename_i h
        split at heq
        · rename_i hbad
          cases heq
          exact ⟨le_rfl, h, hbad.1, hbad.2, fun k hk1 hk2 => by omega⟩
        · rename_i hnotbad
          obtain ⟨h1, h2, h3, h4, h5⟩ := ih (row + 1) j (by omega) heq
          refine ⟨by omega, h2, h3, h4, ?_⟩
          intro k hk1 hk2
          by_cases hkr : row + 1 ≤ k
          · exact h5 k hkr hk2
          · have hkeq : k = row := by omega
            subst hkeq
            by_cases hmem : k ∈ exempt
            · exact Or.inr hmem
            · left
              by_contra hne
              exact hnotbad ⟨hne, hmem⟩
      · exact absurd heq (by simp)

lemma templateLoop_ne_none_of_bad (exempt : List Nat)
    (flags log_template : List String) (row i : Nat)
    (hi : row ≤ i) (hlen : i < flags.length)
    (hne : flags.getD i "" ≠ log_template.getD i "")
    (hnx : i ∉ exempt) :
    templateLoop exempt flags log_template row ≠ none := by
  rw [templateLoop]
  split
  · split
    · simp
    · rename_i h hnotbad
      rcases Nat.eq_or_lt_of_le hi with rfl | hlt
      · exact absurd ⟨hne, hnx⟩ hnotbad
      · exact templateLoop_ne_none_of_bad exempt flags log_template
          (row + 1) i (by omega) hlen hne hnx
  · rename_i h
    omega
termination_by flags.length - row
decreasing_by omega

/-- Claim C5: the global-flags template comparison (`templateLoop`, the
loop of `check_global_flags_variables` with the exemption list as a
parameter) (a) passes when a document is compared against itself, for any
exemption list including the empty one; (b) passes on equal-length
sequences that differ only at exempted indices; (c) raises at the first
index that differs and is not exempted: if some non-exempted index
mismatches, the result is `some j` for the least mismatching non-exempted
index `j` (no accumulation of later mismatches). -/
theorem check_global_flags_variables_spec :
    (∀ (exempt : List Nat) (doc : List String),
      templateLoop exempt doc doc 0 = none) ∧
    (∀ (exempt : List Nat) (flags log_template : List String),
      flags.length = log_template.length →
      (∀ i, i < flags.length →
        flags.getD i "" ≠ log_template.getD i "" → i ∈ exempt) →
      templateLoop exempt flags log_template 0 = none) ∧
    (∀ (exempt : List Nat) (flags log_template : List String) (i : Nat),
      flags.length = log_template.length →
      i < flags.length →
      flags.getD i "" ≠ log_template.getD i "" →
      i ∉ exempt →
      ∃ j, j ≤ i ∧
        templateLoop exempt flags log_template 0 = some j ∧
        flags.getD j "" ≠ log_template.getD j "" ∧ j ∉ exempt ∧
        (∀ k, k < j →
          flags.getD k "" = log_template.getD k "" ∨ k ∈ exempt)) := by
  refine ⟨?_, ?_, ?_⟩
  · intro exempt doc
    exact templateLoop_eq_none_of_good exempt doc doc doc.length 0
      (by omega) (fun i _ _ hne => absurd rfl hne)
  · intro exempt flags log_template _ hgood
    exact templateLoop_eq_none_of_good exempt flags log_template
      flags.length 0 (by omega) (fun i _ hlen hne => hgood i hlen hne)
  · intro exempt flags log_template i _ hlen hne hnx
    have hne' := templateLoop_ne_none_of_bad exempt flags log_template
      0 i (Nat.zero_le i) hlen hne hnx
    obtain ⟨j, hj⟩ : ∃ j, templateLoop exempt flags log_template 0 = some j := by
      cases h : templateLoop exempt flags log_template 0 with
      | none => exact absurd h hne'
      | some j => exact ⟨j, rfl⟩
    obtain ⟨_, hjlen, hjne, hjnx, hfirst⟩ :=
      templateLoop_some_spec exempt flags log_template flags.length 0 j
        (by omega) hj
    refine ⟨j, ?_, hj, hjne, hjnx, fun k hk => hfirst k (Nat.zero_le k) hk⟩
    by_contra hij
    rcases hfirst i (Nat.zero_le i) (by omega) with h | h
    · exact hne h
    · exact hnx h

/-- Witness for C5 at concrete inputs: comparing `["a", "b"]` against
itself passes with the empty exemption list; `["a", "x"]` vs `["a", "b"]`
with index 1 exempted passes; `["x", "b"]` vs `["a", "b"]` with no
exemptions reports the mismatch at index 0. -/
theorem check_global_flags_variables_spec_witness :
    templateLoop [] ["a", "b"] ["a", "b"] 0 = none ∧
    templateLoop [1] ["a", "x"] ["a", "b"] 0 = none ∧
    ∃ j, j ≤ 0 ∧ templateLoop [] ["x", "b"] ["a", "b"] 0 = some j ∧
      (["x", "b"] : List String).getD j "" ≠
        (["a", "b"] : List String).getD j "" ∧ j ∉ ([] : List Nat) ∧
      (∀ k, k < j →
        (["x", "b"] : List String).getD k "" =
          (["a", "b"] : List String).getD k "" ∨ k ∈ ([] : List Nat)) :=
  ⟨check_global_flags_variables_spec.1 [] ["a", "b"],
   check_global_flags_variables_spec.2.1 [1] ["a", "x"] ["a", "b"]
     (by decide)
     (by decide),
   check_global_flags_variables_spec.2.2 [] ["x", "b"] ["a", "b"] 0
     (by decide) (by decide) (by decide) (by decide)⟩

/-! ## Claim C3 theorems -/

/-- Counterexample to claim C3 as stated: the claim says `single_paired`
returns `false` if and only if exactly 1 entry matches, and that a count
of 0 "fails closed with a configuration error rather than returning a
value".  On a metadata table with 0 matching rows the code simply returns
`false`: it never raises for counts outside {1, 2}. -/
theorem single_paired_zero_matches_returns_false :
    single_paired [] "S" = false ∧
    (List.filter (fun r => r == "S") ([] : List String)).length = 0 := by
  decide

/-- Claim C3 (amended): `single_paired` returns `true` iff exactly 2
entries of the metadata source match the sample, and returns `false` for
every other count (including 0 and counts above 2) — it never fails
closed; the directory fallback behaves the same on its file count; the
function is a pure function of the metadata, hence idempotent. -/
theorem single_paired_count_spec (csvSamples : List String) (sample : String)
    (gzFiles : List String) :
    (single_paired csvSamples sample = true ↔
      (csvSamples.filter (fun r => r == sample)).length = 2) ∧
    ((csvSamples.filter (fun r => r == sample)).length ≠ 2 →
      single_paired csvSamples sample = false) ∧
    (single_paired_dir gzFiles = true ↔ gzFiles.length = 2) ∧
    single_paired csvSamples sample = single_paired csvSamples sample := by
  refine ⟨?_, ?_, ?_, rfl⟩
  · simp [single_paired]
  · intro h
    simp [single_paired, h]
  · simp [single_paired_dir]

/-- Witness for C3 (amended) at concrete inputs: two matching rows give
`true`; zero matching rows give `false`. -/
theorem single_paired_count_spec_witness :
    (single_paired ["A", "B", "A"] "A" = true ↔
      (List.filter (fun r => r == "A") ["A", "B", "A"]).length = 2) ∧
    single_paired [] "S" = false :=
  ⟨(single_paired_count_spec ["A", "B", "A"] "A" []).1,
   (single_paired_count_spec [] "S" []).2.1 (by decide)⟩

/-! ## Claim C1 — progress-meter chromosome check

`Parent.check_progressmeter_chromosomes` walks the body rows
`self.progressmeter[2:-1]`, destructures each into a chromosome label, a
chromosome coordinate and a region count, and checks that the
first-occurrence-deduplicated label list equals the canonical reference
list `chr_temp` and that coordinates and regions are non-negative. -/

/-- One body row of the progress-meter section, after the source's
`row.split()` and `chrom.split(':')` destructuring: the chromosome label,
the chromosome coordinate (`int(chrom_id)`) and the region count
(`int(region)`). -/
structure ProgressRow where
  chrom : String
  chromId : Int
  region : Int
deriving DecidableEq

/-- The canonical reference list `chr_temp` of
`src/qc/log_analysis_new.py` lines 347-349 (this revision removed
`chrY`). -/
def chr_temp_qc : List String :=
  ["chr1", "chr2", "chr3", "chr4", "chr5", "chr6", "chr7", "chr8", "chr9",
   "chr10", "chr11", "chr12", "chr13", "chr14", "chr15", "chr16", "chr17",
   "chr18", "chr19", "chr20", "chr21", "chr22", "chrX"]

/-- The canonical reference list of `src/log_analysis_new.py` lines
768-770 (includes `chrY`). -/
def chr_temp_old : List String :=
  ["chr1", "chr2", "chr3", "chr4", "chr5", "chr6", "chr7", "chr8", "chr9",
   "chr10", "chr11", "chr12", "chr13", "chr14", "chr15", "chr16", "chr17",
   "chr18", "chr19", "chr20", "chr21", "chr22", "chrX", "chrY"]

/-- Outcome of `check_progressmeter_chromosomes`.  `pass` means the method
returns; `fail conds missingDiff` models the raised exception: `conds` is
the list of tripped condition tags (comma-joined in the message) and
`missingDiff` is `some diff` exactly when condition t1 tripped, `diff`
being the set difference `set(chr_temp) - set(chromosome)` in reference
order (the message appends `diff[0]`, which is itself an `IndexError` when
`diff` is empty). -/
inductive ChromOutcome where
  | pass : ChromOutcome
  | fail (conds : List String) (missingDiff : Option (List String)) : ChromOutcome
deriving DecidableEq

/-- `Parent.check_progressmeter_chromosomes` (`src/qc/log_analysis_new.py`
lines 336-370), on the already-destructured body rows; the reference list
is a parameter because the two source revisions differ only in it. -/
def check_progressmeter_chromosomes (chr_temp : List String)
    (body : List ProgressRow) : ChromOutcome :=
  let chromosome := body.map (fun r => r.chrom)
  let chromosome_id := body.map (fun r => r.chromId)
  let regions := body.map (fun r => r.region)
  let t1 : Bool := decide (dictFromKeys chromosome ≠ chr_temp)
  let t2 : Bool := chromosome_id.any (fun i => decide (i < 0))
  let t3 : Bool := regions.any (fun i => decide (i < 0))
  if t1 || t2 || t3 then
    ChromOutcome.fail
      (((if t1 then "t1" else "") :: (if t2 then "t2" else "") ::
        (if t3 then "t3" else "") :: []).filter (fun s => decide (s ≠ "")))
      (if t1 then
        some (chr_temp.filter (fun c => decide (c ∉ chromosome)))
       else none)
  else ChromOutcome.pass

/-- Label sequence of a section whose rows form one contiguous group per
reference chromosome, in reference order, chromosome `c` contributing
`k c` rows. -/
def groupLabels (k : String → Nat) : List String → List String
  | [] => []
  | c :: cs => List.replicate (k c) c ++ groupLabels k cs

lemma mem_groupLabels (k : String → Nat) (l : List String) (x : String) :
    x ∈ groupLabels k l ↔ x ∈ l ∧ 0 < k x := by
  induction l with
  | nil => simp [groupLabels]
  | cons c cs ih =>
      simp only [groupLabels, List.mem_append, List.mem_replicate, ih,
        List.mem_cons]
      constructor
      · rintro (⟨hne, rfl⟩ | ⟨hmem, hpos⟩)
        · exact ⟨Or.inl rfl, Nat.pos_of_ne_zero hne⟩
        · exact ⟨Or.inr hmem, hpos⟩
      · rintro ⟨hmem | hmem, hpos⟩
        · subst hmem
          exact Or.inl ⟨Nat.pos_iff_ne_zero.mp hpos, rfl⟩
        · exact Or.inr ⟨hmem, hpos⟩

lemma mem_dictFromKeysAux (x : String) :
    ∀ (l seen : List String),
      x ∈ dictFromKeysAux seen l ↔ x ∈ l ∧ x ∉ seen := by
  intro l
  induction l with
  | nil => intro seen; simp [dictFromKeysAux]
  | cons c cs ih =>
      intro seen
      by_cases h : c ∈ seen
      · simp only [dictFromKeysAux, if_pos h, ih, List.mem_cons]
        constructor
        · rintro ⟨h1, h2⟩
          exact ⟨Or.inr h1, h2⟩
        · rintro ⟨h1 | h1, h2⟩
          · subst h1; exact absurd h h2
          · exact ⟨h1, h2⟩
      · simp only [dictFromKeysAux, if_neg h, List.mem_cons, ih]
        constructor
        · rintro (rfl | ⟨h1, h2⟩)
          · exact ⟨Or.inl rfl, h⟩
          · exact ⟨Or.inr h1, fun hx => h2 (Or.inr hx)⟩
        · rintro ⟨rfl | h1, h2⟩
          · exact Or.inl rfl
          · by_cases hxc : x = c
            · exact Or.inl hxc
            · exact Or.inr ⟨h1, fun hx => hx.elim hxc h2⟩

lemma mem_dictFromKeys (x : String) (l : List String) :
    x ∈ dictFromKeys l ↔ x ∈ l := by
  simp [dictFromKeys, mem_dictFromKeysAux]

lemma dictFromKeysAux_replicate (seen t : List String) (c : String)
    (h : c ∈ seen) :
    ∀ n, dictFromKeysAux seen (List.replicate n c ++ t) =
      dictFromKeysAux seen t := by
  intro n
  induction n with
  | zero => simp
  | succ n ih =>
      simp only [List.replicate_succ, List.cons_append, dictFromKeysAux,
        if_pos h]
      exact ih

lemma dictFromKeysAux_groupLabels (k : String → Nat) :
    ∀ (l seen : List String), l.Nodup →
      dictFromKeysAux seen (groupLabels k l) =
        l.filter (fun c => decide (c ∉ seen) && decide (0 < k c)) := by
  intro l
  induction l with
  | nil => intro seen _; simp [groupLabels, dictFromKeysAux]
  | cons c cs ih =>
      intro seen hnd
      have hc : c ∉ cs := (List.nodup_cons.mp hnd).1
      have hcs : cs.Nodup := (List.nodup_cons.mp hnd).2
      by_cases hseen : c ∈ seen
      · rw [groupLabels, dictFromKeysAux_replicate seen _ c hseen, ih seen hcs,
          List.filter_cons]
        simp [hseen]
      · rcases Nat.eq_zero_or_pos (k c) with hk | hk
        · rw [groupLabels, hk, List.replicate_zero, List.nil_append,
            ih seen hcs, List.filter_cons]
          simp [hk]
        · obtain ⟨n, hn⟩ : ∃ n, k c = n + 1 := ⟨k c - 1, by omega⟩
          rw [groupLabels, hn, List.replicate_succ, List.cons_append]
          rw [show dictFromKeysAux seen
              (c :: (List.replicate n c ++ groupLabels k cs)) =
              c :: dictFromKeysAux (c :: seen)
                (List.replicate n c ++ groupLabels k cs) by
            simp [dictFromKeysAux, hseen]]
          rw [dictFromKeysAux_replicate (c :: seen) _ c (List.mem_cons_self c seen),
            ih (c :: seen) hcs, List.filter_cons]
          have hpass : (decide (c ∉ seen) && decide (0 < k c)) = true := by
            simp [hseen, hn]
          rw [if_pos hpass]
          congr 1
          apply List.filter_congr
          intro d hd
          have hdc : d ≠ c := fun hdc => hc (hdc ▸ hd)
          simp [List.mem_cons, hdc]

lemma dictFromKeys_groupLabels (k : String → Nat) (l : List String)
    (h : l.Nodup) :
    dictFromKeys (groupLabels k l) = l.filter (fun c => decide (0 < k c)) := by
  rw [dictFromKeys, dictFromKeysAux_groupLabels k l [] h]
  apply List.filter_congr
  intro d _
  simp

lemma filter_eq_single (p : String → Bool) :
    ∀ (l : List String) (c0 : String), l.Nodup → c0 ∈ l → p c0 = true →
      (∀ d ∈ l, d ≠ c0 → p d = false) → l.filter p = [c0] := by
  intro l
  induction l with
  | nil => intro c0 _ hc0; cases hc0
  | cons a as ih =>
      intro c0 hnd hc0 hp hother
      have ha : a ∉ as := (List.nodup_cons.mp hnd).1
      have has : as.Nodup := (List.nodup_cons.mp hnd).2
      rcases List.mem_cons.mp hc0 with rfl | hmem
      · rw [List.filter_cons, if_pos hp]
        have : as.filter p = [] := by
          apply List.filter_eq_nil_iff.mpr
          intro d hd
          have hdc : d ≠ c0 := fun hdc => ha (hdc ▸ hd)
          simp [hother d (List.mem_cons.mpr (Or.inr hd)) hdc]
        rw [this]
      · have hac : a ≠ c0 := fun hac => ha (hac ▸ hmem)
        rw [List.filter_cons,
          if_neg (by simp [hother a (List.mem_cons_self a as) hac])]
        exact ih c0 has hmem hp
          (fun d hd hdc => hother d (List.mem_cons.mpr (Or.inr hd)) hdc)

/-- Claim C1: for any duplicate-free reference list (the source
instantiates `chr_temp_qc` resp. `chr_temp_old`): (a) a progress-meter
body whose rows carry each reference chromosome exactly once as one
contiguous group, in reference order, with all chromosome coordinates and
region numbers non-negative, passes `check_progressmeter_chromosomes`;
(b) the same body with the rows of any single reference chromosome
removed raises with condition t1 only, and the reported set difference
names exactly that missing chromosome; (c) a body whose distinct-label
list contains an extra chromosome outside the reference list also raises
(condition t1 trips). -/
theorem check_progressmeter_chromosomes_spec :
    (∀ (chr_temp : List String) (k : String → Nat) (body : List ProgressRow),
      chr_temp.Nodup →
      body.map (fun r => r.chrom) = groupLabels k chr_temp →
      (∀ c ∈ chr_temp, 0 < k c) →
      (∀ r ∈ body, 0 ≤ r.chromId ∧ 0 ≤ r.region) →
      check_progressmeter_chromosomes chr_temp body = ChromOutcome.pass) ∧
    (∀ (chr_temp : List String) (k : String → Nat) (body : List ProgressRow)
      (c0 : String),
      chr_temp.Nodup → c0 ∈ chr_temp →
      body.map (fun r => r.chrom) = groupLabels k chr_temp →
      k c0 = 0 →
      (∀ c ∈ chr_temp, c ≠ c0 → 0 < k c) →
      (∀ r ∈ body, 0 ≤ r.chromId ∧ 0 ≤ r.region) →
      check_progressmeter_chromosomes chr_temp body =
        ChromOutcome.fail ["t1"] (some [c0])) ∧
    (∀ (chr_temp : List String) (body : List ProgressRow) (e : String),
      e ∈ body.map (fun r => r.chrom) → e ∉ chr_temp →
      ∃ conds diff,
        check_progressmeter_chromosomes chr_temp body =
          ChromOutcome.fail conds (some diff) ∧ "t1" ∈ conds) := by
  have anyFalse : ∀ (f : ProgressRow → Int) (body : List ProgressRow),
      (∀ r ∈ body, 0 ≤ f r) →
      (body.map f).any (fun i => decide (i < 0)) = false := by
    intro f body h
    rw [List.any_eq_false]
    intro x hx
    obtain ⟨r, hr, rfl⟩ := List.mem_map.mp hx
    simpa using h r hr
  refine ⟨?_, ?_, ?_⟩
  · intro chr_temp k body hnd hmap hpos hnn
    have ht1 : dictFromKeys (List.map (fun r => r.chrom) body) = chr_temp := by
      rw [hmap, dictFromKeys_groupLabels k chr_temp hnd]
      apply List.filter_eq_self.mpr
      intro c hc
      simpa using hpos c hc
    have hb2 := anyFalse (fun r => r.chromId) body (fun r hr => (hnn r hr).1)
    have hb3 := anyFalse (fun r => r.region) body (fun r hr => (hnn r hr).2)
    simp [check_progressmeter_chromosomes, ht1, hb2, hb3]
  · intro chr_temp k body c0 hnd hc0 hmap hk0 hpos hnn
    have ht1 : dictFromKeys (List.map (fun r => r.chrom) body) ≠ chr_temp := by
      rw [hmap, dictFromKeys_groupLabels k chr_temp hnd]
      intro h
      have := List.filter_eq_self.mp h c0 hc0
      simp [hk0] at this
    have hb1 : decide (dictFromKeys (List.map (fun r => r.chrom) body) ≠
        chr_temp) = true := decide_eq_true ht1
    have hb2 := anyFalse (fun r => r.chromId) body (fun r hr => (hnn r hr).1)
    have hb3 := anyFalse (fun r => r.region) body (fun r hr => (hnn r hr).2)
    have hdiff : chr_temp.filter
        (fun c => decide (c ∉ List.map (fun r => r.chrom) body)) = [c0] := by
      apply filter_eq_single _ chr_temp c0 hnd hc0
      · rw [hmap]
        simp [mem_groupLabels, hk0]
      · intro d hd hdc
        rw [hmap]
        simp only [decide_eq_false_iff_not, Decidable.not_not,
          mem_groupLabels]
        exact ⟨hd, hpos d hd hdc⟩
    simp only [check_progressmeter_chromosomes]
    rw [hb1, hb2, hb3, hdiff]
    rfl
  · intro chr_temp body e hmem hnot
    have ht1 : dictFromKeys (List.map (fun r => r.chrom) body) ≠ chr_temp := by
      intro h
      exact hnot (h ▸ (mem_dictFromKeys e _).mpr hmem)
    have hb1 : decide (dictFromKeys (List.map (fun r => r.chrom) body) ≠
        chr_temp) = true := decide_eq_true ht1
    refine ⟨("t1" :: (if (List.map (fun r => r.chromId) body).any
          (fun i => decide (i < 0)) then "t2" else "") ::
        (if (List.map (fun r => r.region) body).any
          (fun i => decide (i < 0)) then "t3" else "") :: []).filter
        (fun s => decide (s ≠ "")),
      chr_temp.filter (fun c => decide (c ∉ List.map (fun r => r.chrom) body)),
      ?_, ?_⟩
    · simp only [check_progressmeter_chromosomes]
      rw [hb1]
      rfl
    · exact List.mem_filter.mpr ⟨List.mem_cons_self _ _, by decide⟩

/-- Witness for C1 at concrete inputs: a body listing every `chr_temp_qc`
chromosome once passes; dropping `chr2` from the reference pair
`[chr1, chr2]` fails naming `chr2`; an unknown label `chrZ` fails with
t1 tripped. -/
theorem check_progressmeter_chromosomes_spec_witness :
    check_progressmeter_chromosomes chr_temp_qc
        (chr_temp_qc.map (fun c => ProgressRow.mk c 0 1)) =
      ChromOutcome.pass ∧
    check_progressmeter_chromosomes ["chr1", "chr2"]
        [ProgressRow.mk "chr1" 0 1] =
      ChromOutcome.fail ["t1"] (some ["chr2"]) ∧
    (∃ conds diff,
      check_progressmeter_chromosomes chr_temp_qc
          [ProgressRow.mk "chrZ" 0 1] =
        ChromOutcome.fail conds (some diff) ∧ "t1" ∈ conds) :=
  ⟨check_progressmeter_chromosomes_spec.1 chr_temp_qc (fun _ => 1) _
      (by decide) (by decide) (by decide) (by decide),
   check_progressmeter_chromosomes_spec.2.1 ["chr1", "chr2"]
      (fun c => if c = "chr1" then 1 else 0) [ProgressRow.mk "chr1" 0 1]
      "chr2" (by decide) (by decide) (by decide) (by decide) (by decide)
      (by decide),
   check_progressmeter_chromosomes_spec.2.2 chr_temp_qc
      [ProgressRow.mk "chrZ" 0 1] "chrZ" (by decide) (by decide)⟩

/-! ## Claim C2 — single-pass section splitters

`BaseRecalibrator.split_log` and `HaploType.split_log` stream once over
the log lines, switching per-section boolean flags on marker matches and
appending each line to at most one section list through an
if/elif chain. -/

/-- Consume one or more leading decimal digits: `none` when the first
character is not a digit, otherwise the remaining characters. -/
def chompDigits (cs : List Char) : Option (List Char) :=
  if (cs.takeWhile Char.isDigit).isEmpty then none
  else some (cs.dropWhile Char.isDigit)

/-- Does the regex `\d+-\d+-\d+` match starting at this position?  The
greedy scan is exact here because digits and `-` are disjoint. -/
def dateAt (cs : List Char) : Bool :=
  match chompDigits cs with
  | none => false
  | some r1 =>
      match r1 with
      | '-' :: r2 =>
          match chompDigits r2 with
          | none => false
          | some r3 =>
              match r3 with
              | '-' :: r4 => (chompDigits r4).isSome
              | _ => false
      | _ => false

/-- `re.search(r'(\d+-\d+-\d+)', s)`: does the date-like pattern match at
any position of `s`? -/
def dateSearch : List Char → Bool
  | [] => false
  | c :: cs => dateAt (c :: cs) || dateSearch cs

/-- State of `BaseRecalibrator.split_log` (`src/qc/baserecalibrator.py`
lines 26-75): the four section lists and the four routing flags. -/
structure RecalSplitState where
  global_flags : List String
  baserecalibrator : List String
  featuremanager : List String
  progressmeter : List String
  global_flags_bool : Bool
  baserecalibrator_bool : Bool
  featuremanager_bool : Bool
  progressmeter_bool : Bool

/-- Initial state: empty section lists, all flags off. -/
def recalSplitInit : RecalSplitState :=
  ⟨[], [], [], [], false, false, false, false⟩

/-- One iteration of the `BaseRecalibrator.split_log` loop body on one
line: marker checks update the flags (the `[Global flags]` marker line
itself is `continue`d), then the if/elif chain appends the line to at most
one section list, one-shot sections resetting their flag. -/
def recalSplitStep (s : RecalSplitState) (row : String) : RecalSplitState :=
  if pySliceTo row (-1) = "[Global flags]" then
    { s with global_flags_bool := true }
  else
    let gfb := if dateSearch (pySliceToList row.toList 10) then false
               else s.global_flags_bool
    let brb := if containsSub row "INFO  BaseRecalibrat" then true
               else s.baserecalibrator_bool
    let brb := if containsSub row "read(s) filtered by:" then true else brb
    let pmb := if containsSub row "INFO  ProgressMeter" then true
               else s.progressmeter_bool
    let fmb := if containsSub row "INFO  FeatureManager" then true
               else s.featuremanager_bool
    if gfb then
      { global_flags := s.global_flags ++ [row],
        baserecalibrator := s.baserecalibrator,
        featuremanager := s.featuremanager,
        progressmeter := s.progressmeter,
        global_flags_bool := gfb, baserecalibrator_bool := brb,
        featuremanager_bool := fmb, progressmeter_bool := pmb }
    else if brb then
      { global_flags := s.global_flags,
        baserecalibrator := s.baserecalibrator ++ [row],
        featuremanager := s.featuremanager,
        progressmeter := s.progressmeter,
        global_flags_bool := gfb, baserecalibrator_bool := false,
        featuremanager_bool := fmb, progressmeter_bool := pmb }
    else if fmb then
      { global_flags := s.global_flags,
        baserecalibrator := s.baserecalibrator,
        featuremanager := s.featuremanager ++ [row],
        progressmeter := s.progressmeter,
        global_flags_bool := gfb, baserecalibrator_bool := brb,
        featuremanager_bool := false, progressmeter_bool := pmb }
    else if pmb then
      { global_flags := s.global_flags,
        baserecalibrator := s.baserecalibrator,
        featuremanager := s.featuremanager,
        progressmeter := s.progressmeter ++ [row],
        global_flags_bool := gfb, baserecalibrator_bool := brb,
        featuremanager_bool := fmb, progressmeter_bool := false }
    else
      { global_flags := s.global_flags,
        baserecalibrator := s.baserecalibrator,
        featuremanager := s.featuremanager,
        progressmeter := s.progressmeter,
        global_flags_bool := gfb, baserecalibrator_bool := brb,
        featuremanager_bool := fmb, progressmeter_bool := pmb }

/-- `BaseRecalibrator.split_log`: fold the loop body over the log. -/
def baseRecalibrator_split_log (log_file : List String) : RecalSplitState :=
  log_file.foldl recalSplitStep recalSplitInit

/-- State of `HaploType.split_log` (`src/qc/haplotype.py` lines 24-67). -/
structure HaploSplitState where
  haplotype : List String
  featuremanager : List String
  progressmeter : List String
  warning : List String
  haplotype_bool : Bool
  featuremanager_bool : Bool
  progressmeter_bool : Bool
  warn_bool : Bool

/-- Initial state: empty section lists, all flags off. -/
def haploSplitInit : HaploSplitState :=
  ⟨[], [], [], [], false, false, false, false⟩

/-- One iteration of the `HaploType.split_log` loop body: marker checks
set the flags, then the if/elif chain appends the line to at most one of
the four one-shot section lists. -/
def haploSplitStep (s : HaploSplitState) (row : String) : HaploSplitState :=
  let hb := if containsSub row "INFO  HaplotypeCaller" then true
            else s.haplotype_bool
  let hb := if containsSub row "read(s) filtered by:" then true else hb
  let pmb := if containsSub row "INFO  ProgressMeter" then true
             else s.progressmeter_bool
  let fmb := if containsSub row "INFO  FeatureManager" then true
             else s.featuremanager_bool
  let wb := if containsSub row " WARN " then true else s.warn_bool
  if hb then
    { haplotype := s.haplotype ++ [row],
      featuremanager := s.featuremanager,
      progressmeter := s.progressmeter,
      warning := s.warning,
      haplotype_bool := false, featuremanager_bool := fmb,
      progressmeter_bool := pmb, warn_bool := wb }
  else if fmb then
    { haplotype := s.haplotype,
      featuremanager := s.featuremanager ++ [row],
      progressmeter := s.progressmeter,
      warning := s.warning,
      haplotype_bool := hb, featuremanager_bool := false,
      progressmeter_bool := pmb, warn_bool := wb }
  else if pmb then
    { haplotype := s.haplotype,
      featuremanager := s.featuremanager,
      progressmeter := s.progressmeter ++ [row],
      warning := s.warning,
      haplotype_bool := hb, featuremanager_bool := fmb,
      progressmeter_bool := false, warn_bool := wb }
  else if wb then
    { haplotype := s.haplotype,
      featuremanager := s.featuremanager,
      progressmeter := s.progressmeter,
      warning := s.warning ++ [row],
      haplotype_bool := hb, featuremanager_bool := fmb,
      progressmeter_bool := pmb, warn_bool := false }
  else
    { haplotype := s.haplotype,
      featuremanager := s.featuremanager,
      progressmeter := s.progressmeter,
      warning := s.warning,
      haplotype_bool := hb, featuremanager_bool := fmb,
      progressmeter_bool := pmb, warn_bool := wb }

/-- `HaploType.split_log`: fold the loop body over the log. -/
def haploType_split_log (log_file : List String) : HaploSplitState :=
  log_file.foldl haploSplitStep haploSplitInit

/-- Total number of line occurrences routed into the four
`BaseRecalibrator` section lists. -/
def recalTotal (s : RecalSplitState) : Nat :=
  s.global_flags.length + s.baserecalibrator.length +
    s.featuremanager.length + s.progressmeter.length

/-- Total number of line occurrences routed into the four `HaploType`
section lists. -/
def haploTotal (s : HaploSplitState) : Nat :=
  s.haplotype.length + s.featuremanager.length +
    s.progressmeter.length + s.warning.length

lemma recalSplitStep_appends (s : RecalSplitState) (row : String) :
    ((recalSplitStep s row).global_flags = s.global_flags ++ [row] ∧
     (recalSplitStep s row).baserecalibrator = s.baserecalibrator ∧
     (recalSplitStep s row).featuremanager = s.featuremanager ∧
     (recalSplitStep s row).progressmeter = s.progressmeter) ∨
    ((recalSplitStep s row).global_flags = s.global_flags ∧
     (recalSplitStep s row).baserecalibrator = s.baserecalibrator ++ [row] ∧
     (recalSplitStep s row).featuremanager = s.featuremanager ∧
     (recalSplitStep s row).progressmeter = s.progressmeter) ∨
    ((recalSplitStep s row).global_flags = s.global_flags ∧
     (recalSplitStep s row).baserecalibrator = s.baserecalibrator ∧
     (recalSplitStep s row).featuremanager = s.featuremanager ++ [row] ∧
     (recalSplitStep s row).progressmeter = s.progressmeter) ∨
    ((recalSplitStep s row).global_flags = s.global_flags ∧
     (recalSplitStep s row).baserecalibrator = s.baserecalibrator ∧
     (recalSplitStep s row).featuremanager = s.featuremanager ∧
     (recalSplitStep s row).progressmeter = s.progressmeter ++ [row]) ∨
    ((recalSplitStep s row).global_flags = s.global_flags ∧
     (recalSplitStep s row).baserecalibrator = s.baserecalibrator ∧
     (recalSplitStep s row).featuremanager = s.featuremanager ∧
     (recalSplitStep s row).progressmeter = s.progressmeter) := by
  simp only [recalSplitStep]
  repeat' split
  all_goals simp

lemma haploSplitStep_appends (s : HaploSplitState) (row : String) :
    ((haploSplitStep s row).haplotype = s.haplotype ++ [row] ∧
     (haploSplitStep s row).featuremanager = s.featuremanager ∧
     (haploSplitStep s row).progressmeter = s.progressmeter ∧
     (haploSplitStep s row).warning = s.warning) ∨
    ((haploSplitStep s row).haplotype = s.haplotype ∧
     (haploSplitStep s row).featuremanager = s.featuremanager ++ [row] ∧
     (haploSplitStep s row).progressmeter = s.progressmeter ∧
     (haploSplitStep s row).warning = s.warning) ∨
    ((haploSplitStep s row).haplotype = s.haplotype ∧
     (haploSplitStep s row).featuremanager = s.featuremanager ∧
     (haploSplitStep s row).progressmeter = s.progressmeter ++ [row] ∧
     (haploSplitStep s row).warning = s.warning) ∨
    ((haploSplitStep s row).haplotype = s.haplotype ∧
     (haploSplitStep s row).featuremanager = s.featuremanager ∧
     (haploSplitStep s row).progressmeter = s.progressmeter ∧
     (haploSplitStep s row).warning = s.warning ++ [row]) ∨
    ((haploSplitStep s row).haplotype = s.haplotype ∧
     (haploSplitStep s row).featuremanager = s.featuremanager ∧
     (haploSplitStep s row).progressmeter = s.progressmeter ∧
     (haploSplitStep s row).warning = s.warning) := by
  simp only [haploSplitStep]
  repeat' split
  all_goals simp

lemma recalSplitStep_total (s : RecalSplitState) (row : String) :
    recalTotal (recalSplitStep s row) ≤ recalTotal s + 1 := by
  rcases recalSplitStep_appends s row with h | h | h | h | h <;>
    · obtain ⟨h1, h2, h3, h4⟩ := h
      simp [recalTotal, h1, h2, h3, h4]
      try omega

lemma haploSplitStep_total (s : HaploSplitState) (row : String) :
    haploTotal (haploSplitStep s row) ≤ haploTotal s + 1 := by
  rcases haploSplitStep_appends s row with h | h | h | h | h <;>
    · obtain ⟨h1, h2, h3, h4⟩ := h
      simp [haploTotal, h1, h2, h3, h4]
      try omega

lemma recal_foldl_total : ∀ (rows : List String) (s : RecalSplitState),
    recalTotal (rows.foldl recalSplitStep s) ≤ recalTotal s + rows.length := by
  intro rows
  induction rows with
  | nil => intro s; simp
  | cons r rs ih =>
      intro s
      calc recalTotal ((r :: rs).foldl recalSplitStep s)
          = recalTotal (rs.foldl recalSplitStep (recalSplitStep s r)) := rfl
        _ ≤ recalTotal (recalSplitStep s r) + rs.length := ih _
        _ ≤ recalTotal s + 1 + rs.length := by
            have := recalSplitStep_total s r
            omega
        _ = recalTotal s + (r :: rs).length := by simp; omega

lemma haplo_foldl_total : ∀ (rows : List String) (s : HaploSplitState),
    haploTotal (rows.foldl haploSplitStep s) ≤ haploTotal s + rows.length := by
  intro rows
  induction rows with
  | nil => intro s; simp
  | cons r rs ih =>
      intro s
      calc haploTotal ((r :: rs).foldl haploSplitStep s)
          = haploTotal (rs.foldl haploSplitStep (haploSplitStep s r)) := rfl
        _ ≤ haploTotal (haploSplitStep s r) + rs.length := ih _
        _ ≤ haploTotal s + 1 + rs.length := by
            have := haploSplitStep_total s r
            omega
        _ = haploTotal s + (r :: rs).length := by simp; omega

/-- Claim C2: both single-pass splitters route each line to at most one
section.  Per step, exactly one of the section lists gains the processed
line — or none does — and the others are untouched (the if/elif
first-match-wins discipline); consequently, over any input line sequence
the section lists together hold at most as many line occurrences as the
input has lines: no line is ever double-counted. -/
theorem split_log_routes_each_line_to_at_most_one_section :
    (∀ (s : RecalSplitState) (row : String),
      ((recalSplitStep s row).global_flags = s.global_flags ++ [row] ∧
       (recalSplitStep s row).baserecalibrator = s.baserecalibrator ∧
       (recalSplitStep s row).featuremanager = s.featuremanager ∧
       (recalSplitStep s row).progressmeter = s.progressmeter) ∨
      ((recalSplitStep s row).global_flags = s.global_flags ∧
       (recalSplitStep s row).baserecalibrator = s.baserecalibrator ++ [row] ∧
       (recalSplitStep s row).featuremanager = s.featuremanager ∧
       (recalSplitStep s row).progressmeter = s.progressmeter) ∨
      ((recalSplitStep s row).global_flags = s.global_flags ∧
       (recalSplitStep s row).baserecalibrator = s.baserecalibrator ∧
       (recalSplitStep s row).featuremanager = s.featuremanager ++ [row] ∧
       (recalSplitStep s row).progressmeter = s.progressmeter) ∨
      ((recalSplitStep s row).global_flags = s.global_flags ∧
       (recalSplitStep s row).baserecalibrator = s.baserecalibrator ∧
       (recalSplitStep s row).featuremanager = s.featuremanager ∧
       (recalSplitStep s row).progressmeter = s.progressmeter ++ [row]) ∨
      ((recalSplitStep s row).global_flags = s.global_flags ∧
       (recalSplitStep s row).baserecalibrator = s.baserecalibrator ∧
       (recalSplitStep s row).featuremanager = s.featuremanager ∧
       (recalSplitStep s row).progressmeter = s.progressmeter)) ∧
    (∀ (log_file : List String),
      recalTotal (baseRecalibrator_split_log log_file) ≤ log_file.length) ∧
    (∀ (s : HaploSplitState) (row : String),
      ((haploSplitStep s row).haplotype = s.haplotype ++ [row] ∧
       (haploSplitStep s row).featuremanager = s.featuremanager ∧
       (haploSplitStep s row).progressmeter = s.progressmeter ∧
       (haploSplitStep s row).warning = s.warning) ∨
      ((haploSplitStep s row).haplotype = s.haplotype ∧
       (haploSplitStep s row).featuremanager = s.featuremanager ++ [row] ∧
       (haploSplitStep s row).progressmeter = s.progressmeter ∧
       (haploSplitStep s row).warning = s.warning) ∨
      ((haploSplitStep s row).haplotype = s.haplotype ∧
       (haploSplitStep s row).featuremanager = s.featuremanager ∧
       (haploSplitStep s row).progressmeter = s.progressmeter ++ [row] ∧
       (haploSplitStep s row).warning = s.warning) ∨
      ((haploSplitStep s row).haplotype = s.haplotype ∧
       (haploSplitStep s row).featuremanager = s.featuremanager ∧
       (haploSplitStep s row).progressmeter = s.progressmeter ∧
       (haploSplitStep s row).warning = s.warning ++ [row]) ∨
      ((haploSplitStep s row).haplotype = s.haplotype ∧
       (haploSplitStep s row).featuremanager = s.featuremanager ∧
       (haploSplitStep s row).progressmeter = s.progressmeter ∧
       (haploSplitStep s row).warning = s.warning)) ∧
    (∀ (log_file : List String),
      haploTotal (haploType_split_log log_file) ≤ log_file.length) := by
  refine ⟨recalSplitStep_appends, ?_, haploSplitStep_appends, ?_⟩
  · intro log_file
    have := recal_foldl_total log_file recalSplitInit
    simpa [baseRecalibrator_split_log, recalTotal, recalSplitInit] using this
  · intro log_file
    have := haplo_foldl_total log_file haploSplitInit
    simpa [haploType_split_log, haploTotal, haploSplitInit] using this

/-! ## Claim C4 — `SamSort.check_table_sums`

The source builds `list_` from `self.log_file[8:-2]` (one list of parsed
floats per table row), forms the rectangular array `np.array(list_)`, and
evaluates `sum_ = lambda x: np.isclose(sum(x[:-1]), x[-1], atol=0.001)`.
Python's `sum(x[:-1])` adds the row vectors elementwise, so `sum_` is a
boolean vector over columns comparing each column's sum over all non-final
rows with the final (Total) row.  The qc revision then tests
`any(list(~sum_(...)[:3]) + list(~sum_(...)[4:]))` — all columns except
index 3 — while the older revision tests every column. -/

/-- `np.isclose(a, b, atol=0.001)` with numpy's default relative
tolerance `rtol = 1e-05`: `|a - b| ≤ atol + rtol * |b|`. -/
def npIsClose (a b : ℚ) : Bool :=
  decide (|a - b| ≤ 1 / 1000 + 1 / 100000 * |b|)

/-- Elementwise column sum of `sum(x[:-1])` (all rows but the last) at
column `j`; the tables under check are rectangular. -/
def colSum (table : List (List ℚ)) (j : Nat) : ℚ :=
  (table.dropLast.map (fun rowvals => rowvals.getD j 0)).sum

/-- The final (Total) row `x[-1]` of the table. -/
def lastRow (table : List (List ℚ)) : List ℚ :=
  (table.getLast?).getD []

/-- `SamSort.check_table_sums`, `src/qc/samsort.py` lines 176-193.
Before the sum check the method stores `self.dups = int(list_[-1][2])`
(line 188), which raises `IndexError` when the table is empty or its
final row has fewer than 3 entries — modelled as `none`.  Otherwise
`some b`, with `b = true` when the sum check raises.  Column index 3 is
exempted by the `[:3]` / `[4:]` slices. -/
def check_table_sums_qc (table : List (List ℚ)) : Option Bool :=
  let close := (List.range (lastRow table).length).map
    (fun j => npIsClose (colSum table j) ((lastRow table).getD j 0))
  if 3 ≤ (lastRow table).length then
    some ((close.take 3 ++ close.drop 4).any (fun b => !b))
  else none

/-- `SamSort.check_table_sums`, `src/log_analysis.py` lines 443-460:
the same `self.dups = int(list_[-1][2])` guard (line 455, `none` on its
`IndexError`), then every column is tested. -/
def check_table_sums_old (table : List (List ℚ)) : Option Bool :=
  if 3 ≤ (lastRow table).length then
    some (((List.range (lastRow table).length).map
      (fun j => npIsClose (colSum table j) ((lastRow table).getD j 0))).any
      (fun b => !b))
  else none

lemma drop_range (m n : Nat) :
    (List.range n).drop m = (List.range (n - m)).map (fun j => m + j) := by
  apply List.ext_getElem
  · simp
  · intro i h1 h2
    simp [List.getElem_drop, List.getElem_range]

lemma any_slices_eq_false (n : Nat) (f : Nat → Bool) :
    (((List.range n).map f).take 3 ++ ((List.range n).map f).drop 4).any
      (fun b => !b) = false ↔ ∀ j < n, j ≠ 3 → f j = true := by
  rw [← List.map_take, ← List.map_drop, List.take_range, drop_range,
    List.map_map, List.any_append, Bool.or_eq_false_iff]
  simp only [List.any_eq_false, List.mem_map, List.mem_range,
    Function.comp]
  constructor
  · rintro ⟨h1, h2⟩ j hj hj3
    by_cases hj4 : j < 3
    · have hmem : j < 3 ⊓ n := lt_min hj4 hj
      have := h1 (f j) ⟨j, hmem, rfl⟩
      simpa using this
    · have hj4' : 4 ≤ j := by omega
      have hmem : j - 4 < n - 4 := by omega
      have harg : 4 + (j - 4) = j := by omega
      have := h2 (f j) ⟨j - 4, hmem, by rw [harg]⟩
      simpa using this
  · intro h
    refine ⟨?_, ?_⟩
    · rintro b ⟨j, hj, rfl⟩
      have hj' := Nat.lt_min.mp hj
      simp [h j hj'.2 (by omega)]
    · rintro b ⟨j, hj, rfl⟩
      have hjn : 4 + j < n := by omega
      simp [h (4 + j) hjn (by omega)]

lemma any_all_eq_false (n : Nat) (f : Nat → Bool) :
    ((List.range n).map f).any (fun b => !b) = false ↔
      ∀ j < n, f j = true := by
  simp only [List.any_eq_false, List.mem_map, List.mem_range]
  constructor
  · intro h j hj
    have := h (f j) ⟨j, hj, rfl⟩
    simpa using this
  · rintro h b ⟨j, hj, rfl⟩
    simp [h j hj]

/-- Counterexample to claim C4 as stated: in the table
`[[1, 2, 3], [2, 4, 6]]` every row's last column is the exact sum of the
row's preceding columns, yet both revisions of `check_table_sums` raise,
because the code compares column sums against the final row (column 0
sums to 1, the final row holds 2), not row sums against the last
column. -/
theorem check_table_sums_row_sums_still_raise :
    (∀ rowvals ∈ [[(1 : ℚ), 2, 3], [2, 4, 6]],
      rowvals.getD 2 0 = rowvals.getD 0 0 + rowvals.getD 1 0) ∧
    check_table_sums_qc [[1, 2, 3], [2, 4, 6]] = some true ∧
    check_table_sums_old [[1, 2, 3], [2, 4, 6]] = some true := by
  refine ⟨?_, ?_, ?_⟩
  · intro rowvals h
    fin_cases h <;> norm_num
  · simp only [check_table_sums_qc, lastRow, colSum, npIsClose]
    norm_num [List.range_succ]
  · simp only [check_table_sums_old, lastRow, colSum, npIsClose]
    norm_num [List.range_succ]

/-- Claim C4 (amended): `check_table_sums` is a column-sum check, with
`np.isclose`'s mixed tolerance `|diff| ≤ 0.001 + 1e-05·|total|`.  On a
table whose final row has at least 3 entries (otherwise the preceding
`self.dups = int(list_[-1][2])` raises `IndexError` first): the qc
revision passes iff for every column index except 3 the column's sum over
all non-final rows is close to the final (Total) row's entry, and the
older revision passes iff that holds for every column index; row sums are
not inspected. -/
theorem check_table_sums_column_spec (table : List (List ℚ))
    (hd : 3 ≤ (lastRow table).length) :
    (check_table_sums_qc table = some false ↔
      ∀ j < (lastRow table).length, j ≠ 3 →
        npIsClose (colSum table j) ((lastRow table).getD j 0) = true) ∧
    (check_table_sums_old table = some false ↔
      ∀ j < (lastRow table).length,
        npIsClose (colSum table j) ((lastRow table).getD j 0) = true) := by
  constructor
  · simp only [check_table_sums_qc]
    rw [if_pos hd, Option.some_inj]
    exact any_slices_eq_false (lastRow table).length
      (fun j => npIsClose (colSum table j) ((lastRow table).getD j 0))
  · simp only [check_table_sums_old]
    rw [if_pos hd, Option.some_inj]
    exact any_all_eq_false (lastRow table).length
      (fun j => npIsClose (colSum table j) ((lastRow table).getD j 0))

/-! ## Claims C6 and C9 — aggregate scorer (`normalize`, `distance`)

`Parent.distance` first inserts every reference key missing from the
observed dict into the observed dict (in place, with value 0), then
evaluates `abs(np.nansum([p[i] * np.log2(p[i] / q[i]) for i in
range(len(p))]))` over the two dicts' value lists.  Dicts are modelled as
insertion-ordered association lists (CPython semantics: new keys append at
the end).  `p[i] / q[i]` is plain Python division, raising
`ZeroDivisionError` when `q[i] = 0`; the result of a successful division
flows through the numpy float pipeline, modelled on an IEEE-style value
type so that `0 * log2(0/q) = NaN` and `np.nansum`'s NaN-skipping are
explicit.  `np.log2` on positive finite arguments is a parameter
`log2fn`, constrained in the theorems only by `log2fn 1 = 0`, which holds
for the real base-2 logarithm. -/

/-- IEEE-754-style value: a finite rational, a signed infinity, or NaN. -/
inductive RVal where
  | fin : ℚ → RVal
  | pinf : RVal
  | ninf : RVal
  | nan : RVal
deriving DecidableEq

/-- Float addition (as accumulated by `np.nansum`): finite values add,
`+∞ + -∞` is NaN, NaN propagates. -/
def radd : RVal → RVal → RVal
  | RVal.fin a, RVal.fin b => RVal.fin (a + b)
  | RVal.nan, _ => RVal.nan
  | _, RVal.nan => RVal.nan
  | RVal.pinf, RVal.ninf => RVal.nan
  | RVal.ninf, RVal.pinf => RVal.nan
  | RVal.pinf, _ => RVal.pinf
  | _, RVal.pinf => RVal.pinf
  | RVal.ninf, _ => RVal.ninf
  | _, RVal.ninf => RVal.ninf

/-- Float multiplication: `0 * ±∞` is NaN, NaN propagates. -/
def rmul : RVal → RVal → RVal
  | RVal.fin a, RVal.fin b => RVal.fin (a * b)
  | RVal.nan, _ => RVal.nan
  | _, RVal.nan => RVal.nan
  | RVal.fin a, RVal.pinf =>
      if a = 0 then RVal.nan else if 0 < a then RVal.pinf else RVal.ninf
  | RVal.fin a, RVal.ninf =>
      if a = 0 then RVal.nan else if 0 < a then RVal.ninf else RVal.pinf
  | RVal.pinf, RVal.fin b =>
      if b = 0 then RVal.nan else if 0 < b then RVal.pinf else RVal.ninf
  | RVal.ninf, RVal.fin b =>
      if b = 0 then RVal.nan else if 0 < b then RVal.ninf else RVal.pinf
  | RVal.pinf, RVal.pinf => RVal.pinf
  | RVal.pinf, RVal.ninf => RVal.ninf
  | RVal.ninf, RVal.pinf => RVal.ninf
  | RVal.ninf, RVal.ninf => RVal.pinf

/-- `np.log2`: `log2 0 = -∞`, `log2` of a negative (or of `-∞`, or NaN)
is NaN; on positive finite arguments the real logarithm `log2fn`. -/
def rlog2 (log2fn : ℚ → ℚ) : RVal → RVal
  | RVal.fin a =>
      if a = 0 then RVal.ninf
      else if a < 0 then RVal.nan
      else RVal.fin (log2fn a)
  | RVal.pinf => RVal.pinf
  | RVal.ninf => RVal.nan
  | RVal.nan => RVal.nan

/-- Float absolute value (`abs`). -/
def rabs : RVal → RVal
  | RVal.fin a => RVal.fin |a|
  | RVal.pinf => RVal.pinf
  | RVal.ninf => RVal.pinf
  | RVal.nan => RVal.nan

/-- `np.nansum`: treat NaN entries as 0 and sum the rest. -/
def nansum (l : List RVal) : RVal :=
  l.foldl (fun acc v => radd acc (if v = RVal.nan then RVal.fin 0 else v))
    (RVal.fin 0)

/-- Python `max` over a dict's values; every use in the source is on a
non-empty dict (Python `max([])` raises, the `[]` default here is never
reached under the theorems' hypotheses). -/
def pymax : List ℚ → ℚ
  | [] => 0
  | x :: xs => xs.foldl max x

/-- `Parent.normalize` (`src/qc/log_analysis_new.py` lines 202-212):
scale every value of the dict by `factor = target / max(values)`. -/
def Parent.normalize (dict_ : List (String × ℚ)) (target : ℚ) :
    List (String × ℚ) :=
  let raw := pymax (dict_.map Prod.snd)
  let factor := target / raw
  dict_.map (fun kv => (kv.1, kv.2 * factor))

/-- The key-insertion loop of `Parent.distance` (lines 181-185): every
reference key missing from `dict_` is inserted into `dict_` with value 0;
CPython dicts append new keys in insertion order. -/
def insertMissing (dict_ correct_dist_dict_ : List (String × ℚ)) :
    List (String × ℚ) :=
  correct_dist_dict_.foldl
    (fun d kv =>
      if kv.1 ∈ d.map Prod.fst then d else d ++ [(kv.1, 0)])
    dict_

/-- Value of one term `p[i] * np.log2(p[i] / q[i])` of the divergence
sum when the division succeeds (`q ≠ 0`): the quotient is an exact plain
division, then the numpy float pipeline. -/
def klTermVal (log2fn : ℚ → ℚ) (p q : ℚ) : RVal :=
  rmul (RVal.fin p) (rlog2 log2fn (RVal.fin (p / q)))

/-- One term `p[i] * np.log2(p[i] / q[i])` of the divergence sum.
`p[i]` and `q[i]` are plain Python numbers, so a zero denominator raises
`ZeroDivisionError` — modelled as `none`. -/
def klTerm (log2fn : ℚ → ℚ) (p q : ℚ) : Option RVal :=
  if q = 0 then none else some (klTermVal log2fn p q)

/-- `Parent.distance` (`src/qc/log_analysis_new.py` lines 173-190):
returns the pair of the mutated observed dict and the outcome of the
returned value `abs(np.nansum([p[i] * np.log2(p[i]/q[i]) for i in
range(len(p))]))` — `none` when building the term list raises (a zero
reference value hits `ZeroDivisionError`; an out-of-range `q[i]`, an
`IndexError` in Python, reads the default 0 here and is likewise
`none`). -/
def Parent.distance (log2fn : ℚ → ℚ)
    (dict_ correct_dist_dict_ : List (String × ℚ)) :
    List (String × ℚ) × Option RVal :=
  let d := insertMissing dict_ correct_dist_dict_
  let p := d.map Prod.snd
  let q := correct_dist_dict_.map Prod.snd
  let terms := (List.range p.length).map
    (fun i => klTerm log2fn (p.getD i 0) (q.getD i 0))
  (d, if terms.all Option.isSome then
        some (rabs (nansum (terms.map (fun t => t.getD RVal.nan))))
      else none)

lemma insertMissing_eq :
    ∀ (c d : List (String × ℚ)), (c.map Prod.fst).Nodup →
      insertMissing d c =
        d ++ (c.filter
          (fun kv => decide (kv.1 ∉ d.map Prod.fst))).map
          (fun kv => (kv.1, 0)) := by
  intro c
  induction c with
  | nil => intro d _; simp [insertMissing]
  | cons kv cs ih =>
      intro d hnd
      have hk : kv.1 ∉ cs.map Prod.fst := (List.nodup_cons.mp hnd).1
      have hcs : (cs.map Prod.fst).Nodup := (List.nodup_cons.mp hnd).2
      have hstep : insertMissing d (kv :: cs) =
          insertMissing
            (if kv.1 ∈ d.map Prod.fst then d else d ++ [(kv.1, 0)]) cs := by
        simp [insertMissing]
      by_cases hmem : kv.1 ∈ d.map Prod.fst
      · rw [hstep, if_pos hmem, ih d hcs, List.filter_cons,
          if_neg (by simp [hmem])]
      · rw [hstep, if_neg hmem, ih (d ++ [(kv.1, 0)]) hcs, List.filter_cons,
          if_pos (by simp [hmem])]
        have hfil : List.filter
            (fun x => decide (x.1 ∉ (d ++ [(kv.1, 0)]).map Prod.fst)) cs =
            List.filter (fun x => decide (x.1 ∉ d.map Prod.fst)) cs := by
          apply List.filter_congr
          intro x hx
          have hxk : x.1 ≠ kv.1 :=
            fun h => hk (h ▸ List.mem_map_of_mem Prod.fst hx)
          simp [List.map_append, hxk]
        rw [hfil]
        simp

lemma pymax_foldl_mul (f : ℚ) (hf : 0 ≤ f) :
    ∀ (xs : List ℚ) (a : ℚ),
      (xs.map (fun v => v * f)).foldl max (a * f) =
        xs.foldl max a * f := by
  intro xs
  induction xs with
  | nil => intro a; simp
  | cons x l ih =>
      intro a
      simp only [List.map_cons, List.foldl_cons]
      rw [← max_mul_of_nonneg a x hf, ih]

lemma pymax_map_mul (l : List ℚ) (f : ℚ) (hf : 0 ≤ f) :
    pymax (l.map (fun v => v * f)) = pymax l * f := by
  cases l with
  | nil => simp [pymax]
  | cons x xs => simp only [List.map_cons, pymax, pymax_foldl_mul f hf]

lemma radd_fin_zero (v : RVal) : radd v (RVal.fin 0) = v := by
  cases v with
  | fin a => simp [radd]
  | pinf => rfl
  | ninf => rfl
  | nan => rfl

lemma nansum_foldl_zero_terms :
    ∀ (l : List RVal) (a : ℚ),
      (∀ x ∈ l, x = RVal.fin 0 ∨ x = RVal.nan) →
      l.foldl (fun acc v => radd acc (if v = RVal.nan then RVal.fin 0 else v))
        (RVal.fin a) = RVal.fin a := by
  intro l
  induction l with
  | nil => intro a _; rfl
  | cons x t ih =>
      intro a h
      have hstep : radd (RVal.fin a)
          (if x = RVal.nan then RVal.fin 0 else x) = RVal.fin a := by
        rcases h x (List.mem_cons_self x t) with rfl | rfl
        · simp [radd]
        · simp [radd]
      simp only [List.foldl_cons, hstep]
      exact ih a (fun y hy => h y (List.mem_cons.mpr (Or.inr hy)))

lemma nansum_eq_zero (l : List RVal)
    (h : ∀ x ∈ l, x = RVal.fin 0 ∨ x = RVal.nan) : nansum l = RVal.fin 0 :=
  nansum_foldl_zero_terms l 0 h

lemma foldl_nan_terms :
    ∀ (l : List RVal) (acc : RVal), (∀ x ∈ l, x = RVal.nan) →
      l.foldl (fun acc v => radd acc (if v = RVal.nan then RVal.fin 0 else v))
        acc = acc := by
  intro l
  induction l with
  | nil => intro acc _; rfl
  | cons x t ih =>
      intro acc h
      have hx := h x (List.mem_cons_self x t)
      subst hx
      simp only [List.foldl_cons, eq_self_iff_true, if_true, radd_fin_zero]
      exact ih acc (fun y hy => h y (List.mem_cons.mpr (Or.inr hy)))

lemma nansum_append_nan (l1 l2 : List RVal)
    (h : ∀ x ∈ l2, x = RVal.nan) : nansum (l1 ++ l2) = nansum l1 := by
  simp only [nansum, List.foldl_append]
  exact foldl_nan_terms l2 _ h

lemma klTermVal_self (log2fn : ℚ → ℚ) (hlog : log2fn 1 = 0) (v : ℚ)
    (hv : v ≠ 0) : klTermVal log2fn v v = RVal.fin 0 := by
  simp only [klTermVal, div_self hv, rlog2]
  rw [if_neg one_ne_zero, if_neg (by norm_num), hlog]
  simp [rmul]

lemma klTermVal_zero_left (log2fn : ℚ → ℚ) (q : ℚ) :
    klTermVal log2fn 0 q = RVal.nan := by
  simp [klTermVal, zero_div, rlog2, rmul]

lemma insertMissing_of_subset :
    ∀ (c d : List (String × ℚ)),
      (∀ kv ∈ c, kv.1 ∈ d.map Prod.fst) → insertMissing d c = d := by
  intro c
  induction c with
  | nil => intro d _; rfl
  | cons kv cs ih =>
      intro d h
      have h1 := h kv (List.mem_cons_self kv cs)
      have hstep : insertMissing d (kv :: cs) = insertMissing d cs := by
        simp [insertMissing, h1]
      rw [hstep]
      exact ih d (fun x hx => h x (List.mem_cons.mpr (Or.inr hx)))

lemma getD_zero_map (l : List (String × ℚ)) (j : Nat) :
    ((l.map (fun kv => (kv.1, (0 : ℚ)))).map Prod.snd).getD j 0 = 0 := by
  induction l generalizing j with
  | nil => simp
  | cons x t ih =>
      cases j with
      | zero => rfl
      | succ j => simpa using ih j

lemma map_snd_zero_pairs (L : List (String × ℚ)) :
    (L.map (fun kv => (kv.1, (0 : ℚ)))).map Prod.snd =
      List.replicate L.length 0 := by
  induction L with
  | nil => rfl
  | cons x t ih => simp [List.replicate_succ, ih]

lemma getD_replicate_self (m j : Nat) :
    (List.replicate m (0 : ℚ)).getD j 0 = 0 := by
  induction m generalizing j with
  | zero => simp
  | succ m ih =>
      cases j with
      | zero => rfl
      | succ j => exact ih j

lemma getD_map_snd_pos (c : List (String × ℚ))
    (h : ∀ kv ∈ c, 0 < kv.2) :
    ∀ i, i < c.length → 0 < (c.map Prod.snd).getD i 0 := by
  intro i hi
  have hi' : i < (c.map Prod.snd).length := by
    rw [List.length_map]
    exact hi
  rw [List.getD_eq_getElem _ _ hi', List.getElem_map]
  exact h _ (List.getElem_mem hi)

lemma length_filter_split (p : (String × ℚ) → Bool)
    (c : List (String × ℚ)) :
    (c.filter p).length + (c.filter (fun kv => !p kv)).length =
      c.length := by
  induction c with
  | nil => rfl
  | cons kv cs ih =>
      by_cases h : p kv <;>
        · simp [List.filter_cons, h]
          try omega

lemma filter_mem_keys_length (c : List (String × ℚ)) (ks : List String)
    (hc : (c.map Prod.fst).Nodup) (hk : ks.Nodup)
    (hsub : ∀ k ∈ ks, k ∈ c.map Prod.fst) :
    (c.filter (fun kv => decide (kv.1 ∈ ks))).length = ks.length := by
  have h1 : (c.map Prod.fst).filter (fun k => decide (k ∈ ks)) =
      (c.filter (fun kv => decide (kv.1 ∈ ks))).map Prod.fst := by
    rw [List.filter_map]
    rfl
  have h2 : ((c.map Prod.fst).filter (fun k => decide (k ∈ ks))).Nodup :=
    hc.filter _
  have h3 : ∀ a, a ∈ (c.map Prod.fst).filter
      (fun k => decide (k ∈ ks)) ↔ a ∈ ks := by
    intro a
    simp only [List.mem_filter, decide_eq_true_eq]
    constructor
    · rintro ⟨_, h⟩
      exact h
    · intro h
      exact ⟨hsub a h, h⟩
  have hlen := ((List.perm_ext_iff_of_nodup h2 hk).mpr h3).length_eq
  rw [h1, List.length_map] at hlen
  exact hlen

lemma filter_notin_keys_length (c : List (String × ℚ)) (ks : List String)
    (hc : (c.map Prod.fst).Nodup) (hk : ks.Nodup)
    (hsub : ∀ k ∈ ks, k ∈ c.map Prod.fst) :
    (c.filter (fun kv => decide (kv.1 ∉ ks))).length =
      c.length - ks.length ∧ ks.length ≤ c.length := by
  have hsplit := length_filter_split (fun kv => decide (kv.1 ∈ ks)) c
  have hmem := filter_mem_keys_length c ks hc hk hsub
  have hcongr : c.filter (fun kv => !decide (kv.1 ∈ ks)) =
      c.filter (fun kv => decide (kv.1 ∉ ks)) := by
    apply List.filter_congr
    intro kv _
    simp
  have hle := List.length_filter_le (fun kv => decide (kv.1 ∈ ks)) c
  constructor
  · rw [← hcongr]
    omega
  · omega

/-- Claim C9: `Parent.distance` is not pure in its first argument: the
observed dict it returns (the caller's dict, mutated in place) is the
original dict with every reference key that was absent appended at the
end with value 0, in reference order; all pre-existing entries are
unchanged (they form an unmodified prefix). -/
theorem distance_mutates_observed_dict (log2fn : ℚ → ℚ)
    (dict_ correct_dist_dict_ : List (String × ℚ))
    (hnd : (correct_dist_dict_.map Prod.fst).Nodup) :
    (Parent.distance log2fn dict_ correct_dist_dict_).1 =
      dict_ ++ (correct_dist_dict_.filter
        (fun kv => decide (kv.1 ∉ dict_.map Prod.fst))).map
        (fun kv => (kv.1, 0)) := by
  simp only [Parent.distance]
  exact insertMissing_eq correct_dist_dict_ dict_ hnd

/-- Witness for C9 at a concrete input: observed `{a: 1}` against
reference `{a: 1, b: 2}` leaves the observed dict as `{a: 1, b: 0}`. -/
theorem distance_mutates_observed_dict_witness :
    (Parent.distance (fun _ => 0) [("a", 1)] [("a", 1), ("b", 2)]).1 =
      [("a", 1), ("b", 0)] := by
  rw [distance_mutates_observed_dict (fun _ => 0) [("a", 1)]
    [("a", 1), ("b", 2)] (by decide)]
  decide

/-- Claim C6: (a) for every non-empty dict with positive maximum value,
`Parent.normalize` (at target 1.0) returns a dict whose maximum value is
exactly 1; (b) for every positive-valued dict identical to its reference
(the source's reference distributions are all positive-valued),
`Parent.distance` returns divergence 0, for any logarithm with
`log2 1 = 0` (true of the real `np.log2`); (c) for a positive-valued
reference, reference keys missing from the observed dict are treated as
0 and contribute 0 — not NaN — to the divergence sum: the returned value
equals the same expression summed over the original observed entries
only (each appended missing-key term is `0 * log2(0/q) = NaN` and
`np.nansum` drops it). -/
theorem normalize_distance_spec :
    (∀ (dict_ : List (String × ℚ)),
      dict_ ≠ [] → 0 < pymax (dict_.map Prod.snd) →
      pymax ((Parent.normalize dict_ 1).map Prod.snd) = 1) ∧
    (∀ (log2fn : ℚ → ℚ) (c : List (String × ℚ)), log2fn 1 = 0 →
      (∀ kv ∈ c, 0 < kv.2) →
      (Parent.distance log2fn c c).2 = some (RVal.fin 0)) ∧
    (∀ (log2fn : ℚ → ℚ) (dict_ correct : List (String × ℚ)),
      (correct.map Prod.fst).Nodup →
      (dict_.map Prod.fst).Nodup →
      (∀ kv ∈ dict_, kv.1 ∈ correct.map Prod.fst) →
      (∀ kv ∈ correct, 0 < kv.2) →
      (Parent.distance log2fn dict_ correct).2 =
        some (rabs (nansum ((List.range dict_.length).map (fun i =>
          klTermVal log2fn ((dict_.map Prod.snd).getD i 0)
            ((correct.map Prod.snd).getD i 0)))))) := by
  refine ⟨?_, ?_, ?_⟩
  · intro dict_ hne hpos
    have hraw : pymax (dict_.map Prod.snd) ≠ 0 := ne_of_gt hpos
    have hmap : (Parent.normalize dict_ 1).map Prod.snd =
        (dict_.map Prod.snd).map
          (fun v => v * (1 / pymax (dict_.map Prod.snd))) := by
      simp [Parent.normalize, List.map_map, Function.comp, one_div]
    rw [hmap, pymax_map_mul _ _ (by positivity)]
    field_simp
  · intro log2fn c hlog hpos
    have hins : insertMissing c c = c :=
      insertMissing_of_subset c c
        (fun kv hkv => List.mem_map_of_mem Prod.fst hkv)
    simp only [Parent.distance, hins]
    have hterm : ∀ i ∈ List.range (c.map Prod.snd).length,
        klTerm log2fn ((c.map Prod.snd).getD i 0)
          ((c.map Prod.snd).getD i 0) = some (RVal.fin 0) := by
      intro i hi
      have hi' : i < c.length := by
        have := List.mem_range.mp hi
        rwa [List.length_map] at this
      have hv : 0 < (c.map Prod.snd).getD i 0 :=
        getD_map_snd_pos c hpos i hi'
      rw [klTerm, if_neg (ne_of_gt hv),
        klTermVal_self log2fn hlog _ (ne_of_gt hv)]
    rw [List.map_congr_left hterm]
    split
    · rw [Option.some_inj, List.map_map]
      rw [nansum_eq_zero]
      · simp [rabs]
      · intro x hx
        obtain ⟨i, _, rfl⟩ := List.mem_map.mp hx
        left
        rfl
    · rename_i hcond
      exfalso
      apply hcond
      rw [List.all_eq_true]
      intro x hx
      obtain ⟨i, _, rfl⟩ := List.mem_map.mp hx
      rfl
  · intro log2fn dict_ correct hnd hdnd hsub hqpos
    have heq := insertMissing_eq correct dict_ hnd
    have hsub' : ∀ k ∈ dict_.map Prod.fst, k ∈ correct.map Prod.fst := by
      intro k hk
      obtain ⟨kv, hkv, rfl⟩ := List.mem_map.mp hk
      exact hsub kv hkv
    obtain ⟨hmlen, hnle⟩ := filter_notin_keys_length correct
      (dict_.map Prod.fst) hnd hdnd hsub'
    have hdl : (List.map Prod.fst dict_).length = dict_.length := by
      rw [List.length_map]
    simp only [Parent.distance, heq]
    rw [List.map_append, map_snd_zero_pairs]
    set m := (List.filter
      (fun kv => decide (kv.1 ∉ List.map Prod.fst dict_))
      correct).length with hm
    rw [List.length_append, List.length_map, List.length_replicate,
      List.range_add, List.map_append]
    have hA : (List.range dict_.length).map
        (fun i => klTerm log2fn
          ((List.map Prod.snd dict_ ++ List.replicate m 0).getD i 0)
          ((List.map Prod.snd correct).getD i 0)) =
        (List.range dict_.length).map
        (fun i => some (klTermVal log2fn
          ((List.map Prod.snd dict_).getD i 0)
          ((List.map Prod.snd correct).getD i 0))) := by
      apply List.map_congr_left
      intro i hi
      have hi' : i < dict_.length := List.mem_range.mp hi
      rw [List.getD_append _ _ _ i (by rw [List.length_map]; exact hi')]
      have hq : 0 < (List.map Prod.snd correct).getD i 0 :=
        getD_map_snd_pos correct hqpos i (by omega)
      rw [klTerm, if_neg (ne_of_gt hq)]
    have hB : List.map
        (fun i => klTerm log2fn
          ((List.map Prod.snd dict_ ++ List.replicate m 0).getD i 0)
          ((List.map Prod.snd correct).getD i 0))
        (List.map (fun x => dict_.length + x) (List.range m)) =
        List.map (fun _ => some RVal.nan) (List.range m) := by
      rw [List.map_map]
      apply List.map_congr_left
      intro j hj
      have hj' : j < m := List.mem_range.mp hj
      simp only [Function.comp]
      rw [List.getD_append_right _ _ _ _ (by rw [List.length_map]; omega)]
      rw [List.length_map]
      have hidx : dict_.length + j - dict_.length = j := by omega
      rw [hidx, getD_replicate_self]
      have hq : 0 < (List.map Prod.snd correct).getD
          (dict_.length + j) 0 :=
        getD_map_snd_pos correct hqpos _ (by omega)
      rw [klTerm, if_neg (ne_of_gt hq), klTermVal_zero_left]
    rw [hA, hB]
    split
    · rw [Option.some_inj, List.map_append, List.map_map, List.map_map]
      rw [nansum_append_nan]
      · congr 2
      · intro x hx
        obtain ⟨j, _, rfl⟩ := List.mem_map.mp hx
        rfl
    · rename_i hcond
      exfalso
      apply hcond
      rw [List.all_append, Bool.and_eq_true]
      constructor <;>
        · rw [List.all_eq_true]
          intro x hx
          obtain ⟨i, _, rfl⟩ := List.mem_map.mp hx
          rfl

/-- Witness for C6 at concrete inputs: normalizing `{a: 2}` yields
maximum 1; the distance of the positive-valued `{a: 1}` from itself is
0; the distance of `{a: 1}` from the positive-valued reference
`{a: 1, b: 2}` equals the sum over the single original entry alone. -/
theorem normalize_distance_spec_witness :
    pymax ((Parent.normalize [("a", (2 : ℚ))] 1).map Prod.snd) = 1 ∧
    (Parent.distance (fun _ => 0) [("a", (1 : ℚ))] [("a", (1 : ℚ))]).2 =
      some (RVal.fin 0) ∧
    (Parent.distance (fun _ => 0) [("a", (1 : ℚ))]
        [("a", (1 : ℚ)), ("b", (2 : ℚ))]).2 =
      some (rabs (nansum ((List.range ([("a", (1 : ℚ))] :
          List (String × ℚ)).length).map (fun i =>
        klTermVal (fun _ => 0)
          (([("a", (1 : ℚ))].map Prod.snd).getD i 0)
          (([("a", (1 : ℚ)), ("b", (2 : ℚ))].map Prod.snd).getD i 0))))) :=
  ⟨normalize_distance_spec.1 [("a", 2)] (by decide)
      (by norm_num [pymax]),
   normalize_distance_spec.2.1 (fun _ => 0) [("a", 1)] rfl (by decide),
   normalize_distance_spec.2.2 (fun _ => 0) [("a", 1)]
      [("a", 1), ("b", 2)] (by decide) (by decide) (by decide)
      (by decide)⟩

/-! ## Claim C7 — `SamSort.check_unmated`

`check_unmated` (`src/qc/samsort.py` lines 123-132) raises when the first
`re.findall(r'\d+', line5)` match is a non-zero integer or the last
`re.findall(r"[-+]?\d*\.\d+|\d+", line5)` match is a non-zero float,
where `line5 = self.log_file[4]` is the unmated-pairs line.  The regex
scanners are embedded below with a structural character-count fuel (one
unit per scan step, so `length` fuel is never exhausted). -/

/-- `re.findall(r'\d+', s)`: maximal digit runs, left to right
(fuel-structural form of the scan). -/
def digitRunsF : Nat → List Char → List (List Char)
  | 0, _ => []
  | _, [] => []
  | fuel + 1, c :: cs =>
      if c.isDigit then
        (c :: cs.takeWhile Char.isDigit) ::
          digitRunsF fuel (cs.dropWhile Char.isDigit)
      else digitRunsF fuel cs

/-- `re.findall(r'\d+', s)` with adequate fuel. -/
def digitRuns (cs : List Char) : List (List Char) :=
  digitRunsF cs.length cs

/-- Core of the float alternative `\d*\.\d+` with the optional sign
already consumed: greedy integer digits, a dot, then one or more fraction
digits.  No backtracking is needed because a digit can never match the
dot. -/
def tryFloatCore (cs : List Char) : Option (List Char × List Char) :=
  match cs.dropWhile Char.isDigit with
  | '.' :: r2 =>
      if (r2.takeWhile Char.isDigit).isEmpty then none
      else some (cs.takeWhile Char.isDigit ++ '.' :: r2.takeWhile Char.isDigit,
        r2.dropWhile Char.isDigit)
  | _ => none

/-- The float alternative `[-+]?\d*\.\d+` anchored at the current
position: an optional sign, then the core. -/
def tryFloatAlt : List Char → Option (List Char × List Char)
  | [] => none
  | c :: cs =>
      if c = '-' ∨ c = '+' then
        match tryFloatCore cs with
        | some (m, rest) => some (c :: m, rest)
        | none => none
      else tryFloatCore (c :: cs)

/-- The integer alternative `\d+` anchored at the current position. -/
def tryIntAlt (cs : List Char) : Option (List Char × List Char) :=
  if (cs.takeWhile Char.isDigit).isEmpty then none
  else some (cs.takeWhile Char.isDigit, cs.dropWhile Char.isDigit)

/-- `re.findall(r"[-+]?\d*\.\d+|\d+", s)`: at each position try the float
alternative, then the integer alternative; emit the match and resume
after it, else advance one character (fuel-structural form). -/
def floatRunsF : Nat → List Char → List (List Char)
  | 0, _ => []
  | _, [] => []
  | fuel + 1, c :: cs =>
      match tryFloatAlt (c :: cs) with
      | some (m, rest) => m :: floatRunsF fuel rest
      | none =>
          match tryIntAlt (c :: cs) with
          | some (m, rest) => m :: floatRunsF fuel rest
          | none => floatRunsF fuel cs

/-- `re.findall(r"[-+]?\d*\.\d+|\d+", s)` with adequate fuel. -/
def floatRuns (cs : List Char) : List (List Char) :=
  floatRunsF cs.length cs

/-- `int()` of a digit run. -/
def digitsToNat (ds : List Char) : Nat :=
  ds.foldl (fun n c => 10 * n + (c.toNat - '0'.toNat)) 0

/-- `float()` of an unsigned match: either `digits` or
`digits.digits`. -/
def pyFloatCore (m : List Char) : ℚ :=
  match m.dropWhile Char.isDigit with
  | '.' :: fp =>
      (digitsToNat (m.takeWhile Char.isDigit) : ℚ) +
        (digitsToNat (fp.takeWhile Char.isDigit) : ℚ) /
          (10 ^ (fp.takeWhile Char.isDigit).length)
  | _ => (digitsToNat (m.takeWhile Char.isDigit) : ℚ)

/-- `float()` of a match of the float-or-int regex (possibly signed). -/
def pyFloatOfMatch (m : List Char) : ℚ :=
  match m with
  | '-' :: t => -pyFloatCore t
  | '+' :: t => pyFloatCore t
  | _ => pyFloatCore m

/-- `SamSort.check_unmated` on the unmated line `self.log_file[4]`:
`some b` with `b = true` when the check raises, `none` when a findall
list is empty (Python would raise `IndexError` on `[0]` / `[-1]`). -/
def check_unmated (line5 : String) : Option Bool :=
  match (digitRuns line5.toList).head?, (floatRuns line5.toList).getLast? with
  | some d0, some dl =>
      some (decide (¬digitsToNat d0 = 0) || decide (¬pyFloatOfMatch dl = 0))
  | _, _ => none

/-- Claim C7: a dedup/sort unmated line whose first integer token parses
to 0 and whose final float token parses to 0 (e.g. `0.000` from
`0 of 200000 (0.000%)`) passes `check_unmated`; when the final float
token parses to `0.001` instead, `check_unmated` raises. -/
theorem check_unmated_spec :
    (∀ (line5 : String) (d0 dl : List Char),
      (digitRuns line5.toList).head? = some d0 →
      (floatRuns line5.toList).getLast? = some dl →
      digitsToNat d0 = 0 → pyFloatOfMatch dl = 0 →
      check_unmated line5 = some false) ∧
    (∀ (line5 : String) (d0 dl : List Char),
      (digitRuns line5.toList).head? = some d0 →
      (floatRuns line5.toList).getLast? = some dl →
      pyFloatOfMatch dl = 1 / 1000 →
      check_unmated line5 = some true) := by
  constructor
  · intro line5 d0 dl h1 h2 h3 h4
    simp only [String.toList] at h1 h2
    simp [check_unmated, h1, h2, h3, h4]
  · intro line5 d0 dl h1 h2 h3
    simp only [String.toList] at h1 h2
    have hne : pyFloatOfMatch dl ≠ 0 := by
      rw [h3]
      norm_num
    simp [check_unmated, h1, h2, hne]

/-- Witness for C7 at the spec's concrete line: `0 of 200000 (0.000%)`
passes, and with `0.001%` it raises. -/
theorem check_unmated_spec_witness :
    check_unmated ("samblaster: Found 0 of 200000 (0.000%) total read " ++
      "ids are marked paired yet are unmated.") = some false ∧
    check_unmated ("samblaster: Found 0 of 200000 (0.001%) total read " ++
      "ids are marked paired yet are unmated.") = some true :=
  ⟨check_unmated_spec.1 _ ('0' :: [])
      ('0' :: '.' :: '0' :: '0' :: '0' :: [])
      (by decide) (by decide) (by decide)
      (by
        rw [show pyFloatOfMatch ('0' :: '.' :: '0' :: '0' :: '0' :: []) =
          ((0 : ℕ) : ℚ) + ((0 : ℕ) : ℚ) / 10 ^ 3 from rfl]
        norm_num),
   check_unmated_spec.2 _ ('0' :: [])
      ('0' :: '.' :: '0' :: '0' :: '1' :: [])
      (by decide) (by decide)
      (by
        rw [show pyFloatOfMatch ('0' :: '.' :: '0' :: '0' :: '1' :: []) =
          ((0 : ℕ) : ℚ) + ((1 : ℕ) : ℚ) / 10 ^ 3 from rfl]
        norm_num)⟩

/-! ## Claims C8 and C10 — fastqc checks

`Fastqc.read_log` stores `False` in a slot whose log file cannot be
opened; `check_lines` and `check_start_end` guard each slot with Python
truthiness (`if self.log_file_1:`), which is false both for `False` and
for an empty line list.  A slot is modelled as `Option (List String)`
with `none` for the stored `False`. -/

/-- Python truthiness of a fastqc log slot. -/
def truthy : Option (List String) → Bool
  | none => false
  | some l => !l.isEmpty

/-- `Fastqc.check_lines` (`src/qc/fastqc.py` lines 50-64): raises iff a
truthy slot's line count is neither 21 nor 22; `true` means it raises. -/
def Fastqc.check_lines (log_file_1 log_file_2 : Option (List String)) :
    Bool :=
  (truthy log_file_1 &&
    (decide ((log_file_1.getD []).length ≠ 21) &&
     decide ((log_file_1.getD []).length ≠ 22))) ||
  (truthy log_file_2 &&
    (decide ((log_file_2.getD []).length ≠ 21) &&
     decide ((log_file_2.getD []).length ≠ 22)))

/-- `Fastqc.check_start_end` (`src/qc/fastqc.py` lines 66-79): raises iff
a truthy slot's first line does not start with `Started analysis` or its
last line does not start with `Analysis complete`; `true` means it
raises. -/
def Fastqc.check_start_end (log_file_1 log_file_2 : Option (List String)) :
    Bool :=
  (truthy log_file_1 &&
    (decide (pySliceTo ((log_file_1.getD []).headD "") 16 ≠
        "Started analysis") ||
     decide (pySliceTo ((log_file_1.getD []).getLastD "") 17 ≠
        "Analysis complete"))) ||
  (truthy log_file_2 &&
    (decide (pySliceTo ((log_file_2.getD []).headD "") 16 ≠
        "Started analysis") ||
     decide (pySliceTo ((log_file_2.getD []).getLastD "") 17 ≠
        "Analysis complete")))

/-- Counterexample to claim C8 as stated: a well-formed 21-line pair
passes both checks, and truncating the first file to its first 20 lines
makes `check_lines` raise — but `check_start_end` raises too, because the
truncated file's new last line (`mid`) no longer starts with
`Analysis complete`; the claim's "fails only check_lines" is false. -/
theorem fastqc_truncation_also_fails_start_end :
    Fastqc.check_lines
        (some (("Started analysis of S" :: List.replicate 19 "mid") ++
          ["Analysis complete for S"]))
        (some (("Started analysis of S" :: List.replicate 19 "mid") ++
          ["Analysis complete for S"])) = false ∧
    Fastqc.check_start_end
        (some (("Started analysis of S" :: List.replicate 19 "mid") ++
          ["Analysis complete for S"]))
        (some (("Started analysis of S" :: List.replicate 19 "mid") ++
          ["Analysis complete for S"])) = false ∧
    Fastqc.check_lines
        (some ((("Started analysis of S" :: List.replicate 19 "mid") ++
          ["Analysis complete for S"]).take 20))
        (some (("Started analysis of S" :: List.replicate 19 "mid") ++
          ["Analysis complete for S"])) = true ∧
    Fastqc.check_start_end
        (some ((("Started analysis of S" :: List.replicate 19 "mid") ++
          ["Analysis complete for S"]).take 20))
        (some (("Started analysis of S" :: List.replicate 19 "mid") ++
          ["Analysis complete for S"])) = true := by
  decide

/-- Claim C8 (amended): for a paired fastqc log pair of exactly 21 lines
each whose first lines start with `Started analysis` and last lines start
with `Analysis complete`, both `check_lines` and `check_start_end` pass;
truncating the first file to 20 lines makes `check_lines` raise, while
`check_start_end` then passes if and only if the truncated file's new
last line still starts with `Analysis complete` (on typical logs it does
not, so both checks fail). -/
theorem fastqc_checks_spec (l1 l2 : List String)
    (h1 : l1.length = 21) (h2 : l2.length = 21)
    (hs1 : pySliceTo (l1.headD "") 16 = "Started analysis")
    (he1 : pySliceTo (l1.getLastD "") 17 = "Analysis complete")
    (hs2 : pySliceTo (l2.headD "") 16 = "Started analysis")
    (he2 : pySliceTo (l2.getLastD "") 17 = "Analysis complete") :
    Fastqc.check_lines (some l1) (some l2) = false ∧
    Fastqc.check_start_end (some l1) (some l2) = false ∧
    Fastqc.check_lines (some (l1.take 20)) (some l2) = true ∧
    (Fastqc.check_start_end (some (l1.take 20)) (some l2) = false ↔
      pySliceTo ((l1.take 20).getLastD "") 17 = "Analysis complete") := by
  cases l1 with
  | nil => simp at h1
  | cons a t =>
      have ht : t.length = 20 := by
        simpa using h1
      have htake : (a :: t).take 20 = a :: t.take 19 := rfl
      have hs1' : pySliceTo a 16 = "Started analysis" := by
        simpa using hs1
      have he1' : pySliceTo ((a :: t).getLast?.getD "") 17 =
          "Analysis complete" := by
        simpa using he1
      have hs2' : pySliceTo (l2.head?.getD "") 16 = "Started analysis" := by
        simpa using hs2
      have he2' : pySliceTo (l2.getLast?.getD "") 17 =
          "Analysis complete" := by
        simpa using he2
      refine ⟨?_, ?_, ?_, ?_⟩
      · simp [Fastqc.check_lines, truthy, h1, h2]
      · simp only [Fastqc.check_start_end, truthy]
        simp [hs1', he1']
        intro _
        exact ⟨hs2', he2'⟩
      · simp [Fastqc.check_lines, truthy, htake, List.length_take, ht, h2]
      · rw [htake]
        simp [Fastqc.check_start_end, truthy, hs1']
        intro _ _
        exact ⟨hs2', he2'⟩

/-- Witness for C8 (amended) at a concrete pair: the same synthetic
21-line logs as the counterexample, where the truncated file's last line
is `mid`, so the truncated `check_start_end` iff-condition is false. -/
theorem fastqc_checks_spec_witness :
    Fastqc.check_lines
        (some (("Started analysis of S" :: List.replicate 19 "mid") ++
          ["Analysis complete for S"]))
        (some (("Started analysis of S" :: List.replicate 19 "mid") ++
          ["Analysis complete for S"])) = false ∧
    (Fastqc.check_start_end
        (some ((("Started analysis of S" :: List.replicate 19 "mid") ++
          ["Analysis complete for S"]).take 20))
        (some (("Started analysis of S" :: List.replicate 19 "mid") ++
          ["Analysis complete for S"])) = false ↔
      pySliceTo (((("Started analysis of S" ::
          List.replicate 19 "mid") ++
          ["Analysis complete for S"]).take 20).getLastD "") 17 =
        "Analysis complete") :=
  ⟨(fastqc_checks_spec _ _ (by decide) (by decide) (by decide) (by decide)
      (by decide) (by decide)).1,
   (fastqc_checks_spec _ _ (by decide) (by decide) (by decide) (by decide)
      (by decide) (by decide)).2.2.2⟩

/-- Claim C10: an unreadable (`False`) or zero-line fastqc log slot is
silently skipped: a sample with no readable fastqc logs at all passes
`check_lines` and `check_start_end` vacuously; a falsy first slot is
ignored entirely (the checks' outcome equals that with the slot absent);
and the qc revision's `check_lines` accepts a truthy log of either 21 or
22 lines. -/
theorem fastqc_skips_unreadable_logs :
    (Fastqc.check_lines none none = false ∧
     Fastqc.check_start_end none none = false ∧
     Fastqc.check_lines (some []) (some []) = false ∧
     Fastqc.check_start_end (some []) (some []) = false) ∧
    (∀ (f1 f2 : Option (List String)), truthy f1 = false →
      Fastqc.check_lines f1 f2 = Fastqc.check_lines none f2 ∧
      Fastqc.check_start_end f1 f2 = Fastqc.check_start_end none f2) ∧
    (∀ (l : List String) (f2 : Option (List String)), truthy f2 = false →
      l.length = 21 ∨ l.length = 22 →
      Fastqc.check_lines (some l) f2 = false) := by
  refine ⟨by decide, ?_, ?_⟩
  · intro f1 f2 h
    have hnone : truthy none = false := rfl
    constructor
    · simp [Fastqc.check_lines, h, hnone]
    · simp [Fastqc.check_start_end, h, hnone]
  · intro l f2 h hlen
    rcases hlen with hlen | hlen <;>
      simp [Fastqc.check_lines, h, hlen]

/-- Witness for C10 at concrete inputs: an empty-list slot is skipped
like an unreadable one, and a 22-line log passes the qc
`check_lines`. -/
theorem fastqc_skips_unreadable_logs_witness :
    Fastqc.check_lines (some []) none = Fastqc.check_lines none none ∧
    Fastqc.check_lines (some (List.replicate 22 "x")) none = false :=
  ⟨(fastqc_skips_unreadable_logs.2.1 (some []) none (by decide)).1,
   fastqc_skips_unreadable_logs.2.2 (List.replicate 22 "x") none
     (by decide) (by decide)⟩

/-- Witness for C4 (amended) at a concrete table whose final row has 3
entries, so the `dups` extraction succeeds: the qc column
characterization instantiated at `[[1, 1, 2], [1, 1, 2]]`. -/
theorem check_table_sums_column_spec_witness :
    check_table_sums_qc [[(1 : ℚ), 1, 2], [1, 1, 2]] = some false ↔
      ∀ j < (lastRow [[(1 : ℚ), 1, 2], [1, 1, 2]]).length, j ≠ 3 →
        npIsClose (colSum [[(1 : ℚ), 1, 2], [1, 1, 2]] j)
          ((lastRow [[(1 : ℚ), 1, 2], [1, 1, 2]]).getD j 0) = true :=
  (check_table_sums_column_spec [[(1 : ℚ), 1, 2], [1, 1, 2]]
    (by decide)).1
